import Mathlib

/-!
Shallow embedding of the rag_plants ingestion pipeline (src/main.py,
src/file_reader.py).  External collaborators (sentence splitter, embedding
model, OCR engine, subprocess results, the file system of temporary files)
enter the model as explicit oracle parameters; all decision logic is
translated from the source.
-/

namespace RagPlants

set_option maxRecDepth 10000
set_option maxHeartbeats 1000000

/-- Python whitespace predicate used by `str.split()` / `str.strip()` in the
source, restricted to the ASCII whitespace characters. -/
def pyIsSpace (c : Char) : Bool :=
  c = ' ' || c = '\t' || c = '\n' || c = '\r' || c = '\x0b' || c = '\x0c'

/-- The "useful character" class of the source regex
`[А-Яа-яЁёA-Za-z0-9\s\.\,\!\?\;\:\-\(\)]` (file_reader.py lines 197 and 419). -/
def isUseful (c : Char) : Bool :=
  ('А' ≤ c && c ≤ 'я') || c = 'Ё' || c = 'ё' ||
  ('A' ≤ c && c ≤ 'Z') || ('a' ≤ c && c ≤ 'z') || ('0' ≤ c && c ≤ '9') ||
  pyIsSpace c ||
  c = '.' || c = ',' || c = '!' || c = '?' || c = ';' || c = ':' ||
  c = '-' || c = '(' || c = ')'

/-- `len(re.findall(usefulClass, s))`: the number of useful characters. -/
def usefulCount (s : String) : Nat := (s.data.filter isUseful).length

/-- Helper for `pySplitWS`; `cur` holds the current token reversed. -/
def splitWSAux : List Char → List Char → List String
  | [], cur => if cur = [] then [] else [String.mk cur.reverse]
  | c :: cs, cur =>
    if pyIsSpace c then
      if cur = [] then splitWSAux cs []
      else String.mk cur.reverse :: splitWSAux cs []
    else splitWSAux cs (c :: cur)

/-- Python `text.split()`: split on whitespace runs, dropping empty tokens. -/
def pySplitWS (s : String) : List String := splitWSAux s.data []

/-- Python `text.strip()`: drop whitespace from both ends. -/
def pyStrip (s : String) : String :=
  String.mk (((s.data.dropWhile pyIsSpace).reverse.dropWhile pyIsSpace).reverse)

/-- Python `sep.join(parts)`. -/
def pyJoin (sep : String) : List String → String
  | [] => ""
  | [x] => x
  | x :: xs => x ++ sep ++ pyJoin sep xs

/-- The control characters removed by the page scrub regex
`[\x00-\x08\x0B\x0C\x0E-\x1F\x7F]` (file_reader.py lines 228 and 253). -/
def isCtrl (c : Char) : Bool :=
  c.toNat ≤ 0x08 || c.toNat = 0x0B || c.toNat = 0x0C ||
  (0x0E ≤ c.toNat && c.toNat ≤ 0x1F) || c.toNat = 0x7F

/-- `re.sub(ctrlClass, '', text)`. -/
def removeCtrl (s : String) : String := String.mk (s.data.filter (fun c => !isCtrl c))

/-- Helper for `collapseNL`: `pending` counts newline characters seen but not
yet emitted; a run of three or more is emitted as exactly two. -/
def collapseNLAux : Nat → List Char → List Char
  | pending, [] => List.replicate (min pending 2) '\n'
  | pending, c :: cs =>
    if c = '\n' then collapseNLAux (pending + 1) cs
    else List.replicate (min pending 2) '\n' ++ c :: collapseNLAux 0 cs

/-- `re.sub(r'\n\x7b3,\x7d', '\n\n', text)`: collapse runs of three or more
newlines to a single blank line. -/
def collapseNL (s : String) : String := String.mk (collapseNLAux 0 s.data)

/-- Whether three consecutive newline characters occur in the list. -/
def hasTriple3 : List Char → Bool
  | a :: b :: c :: rest => (a = '\n' && b = '\n' && c = '\n') || hasTriple3 (b :: c :: rest)
  | _ => false

/-- The page scrub applied before a page is stored (file_reader.py lines
253–255): remove control characters, collapse newline runs, strip. -/
def scrub (s : String) : String := pyStrip (collapseNL (removeCtrl s))

/-- The page marker prepended to every stored page. -/
def pageMarker (i : Nat) (t : String) : String :=
  "--- Страница " ++ toString (i + 1) ++ " ---\n" ++ t

/-- The text-layer classifier inlined in `read_pdf` (file_reader.py lines
194–211).  `true` means "native text layer", `false` means "needs OCR".
`minFrac` is the source's `min_text_ratio` parameter. -/
def has_text_layer (text : String) (minFrac : ℚ) : Bool :=
  (decide (text.length > 100) &&
    decide ((if text.length > 0 then mkRat (usefulCount text) text.length else 0)
      ≥ minFrac) &&
    decide (usefulCount text ≥ 50)) &&
  decide (((pySplitWS text).filter (fun w => w.length ≥ 3)).length ≥ 10)

/-- A 200-character page matching the spec's classifier example: 40 three-letter
tokens, then filler of 30 letters and 10 `@` signs — 190 of the 200 characters
are useful, a 95% fraction, and 41 tokens have length ≥ 3. -/
def exNativePage : String :=
  pyJoin " " (List.replicate 40 "abc") ++ " " ++
    String.mk (List.replicate 30 'x') ++ String.mk (List.replicate 10 '@')

/-- A 200-character page of only letters and spaces (100% useful fraction) with
just 5 tokens of length ≥ 3. -/
def exFewTokensPage : String :=
  pyJoin " " (List.replicate 5 "abcd") ++ " " ++
    pyJoin " " (List.replicate 58 "ab") ++ " a"

/-- `SIM_THRESHOLD = 0.80` (main.py line 23). -/
def SIM_THRESHOLD : ℚ := mkRat 80 100

/-- The accumulator loop of `semantic_chunk` (main.py lines 69–79): `rest` is
the list of sentences still to walk, `i` the index of the next sentence, and
`dot i` the dot product of the unit embeddings of sentences `i-1` and `i`
(the embedding model is an external collaborator, so the pairwise similarities
enter the model as an oracle). -/
def chunkGo (dot : Nat → ℚ) : List String → Nat → List String → List String → List String
  | [], _, chunks, current =>
    if current = [] then chunks else chunks ++ [pyJoin " " current]
  | s :: rest, i, chunks, current =>
    if dot i < SIM_THRESHOLD then
      chunkGo dot rest (i + 1) (chunks ++ [pyJoin " " current]) [s]
    else chunkGo dot rest (i + 1) chunks (current ++ [s])

/-- `semantic_chunk` (main.py lines 60–80), with the external sentence splitter
`sentenize` and the similarity oracle `dot` as parameters. -/
def semantic_chunk (sentenize : String → List String) (dot : Nat → ℚ) (text : String) :
    List String :=
  let sentences := sentenize text
  if sentences.length < 2 then sentences
  else
    match sentences with
    | [] => []
    | s0 :: rest => chunkGo dot rest 1 [] [s0]

/-- Similarity oracle of the spec's chunker example: consecutive similarities
0.9 (between sentences 0 and 1) and 0.3 (between sentences 1 and 2). -/
def exDot : Nat → ℚ := fun i => if i = 1 then mkRat 9 10 else mkRat 3 10

/-- The index topology chosen in main.py lines 204–212.  `int(np.sqrt(n))`
truncates the square root, modelled by `Nat.sqrt`. -/
inductive IndexChoice where
  | flat : IndexChoice
  | ivfflat (nlist : Nat) : IndexChoice
deriving DecidableEq

def chooseIndex (nVectors : Nat) : IndexChoice :=
  if nVectors < 5000 then .flat
  else .ivfflat (max 32 (min (Nat.sqrt nVectors) 512))

/-- The operations performed on the chosen index, in source order (main.py
lines 204–218): the IVF index is trained before insertion and receives
`nprobe = 32` after it; the flat index is only filled. -/
inductive IndexOp where
  | train : IndexOp
  | add : IndexOp
  | setNprobe (k : Nat) : IndexOp
deriving DecidableEq

def indexBuildOps (nVectors : Nat) : List IndexOp :=
  if nVectors < 5000 then [.add]
  else [.train, .add, .setNprobe 32]

/-- Modelled from the spec: `round(sqrt(n))`, the nearest integer to the square
root, for comparison with the code's truncating `int(np.sqrt(n))`. -/
def specRoundSqrt (n : Nat) : Nat :=
  if Nat.sqrt n * Nat.sqrt n + Nat.sqrt n < n then Nat.sqrt n + 1 else Nat.sqrt n

/-- Modelled from the spec: `clamp(round(sqrt(n)), 32, 512)`. -/
def specNlist (n : Nat) : Nat := max 32 (min (specRoundSqrt n) 512)

/-- Outcome of the embeddings reload step (main.py lines 177–195): `fatal`
models the `raise ValueError` that stops the run; `ok rows fresh` carries the
row list used afterwards, `fresh` recording whether the rows were newly
computed and saved rather than reloaded. -/
inductive EmbOutcome (E : Type) where
  | fatal (msg : String) : EmbOutcome E
  | ok (rows : List E) (fresh : Bool) : EmbOutcome E
deriving DecidableEq

/-- The embeddings stage: `stored` is the contents of `all_embeddings.npy`
(`none` when the file does not exist), `encode` the embedding model. -/
def embeddings_stage {E : Type} (stored : Option (List E)) (allChunks : List String)
    (encode : List String → List E) : EmbOutcome E :=
  match stored with
  | some rows =>
    if rows.length ≠ allChunks.length then .fatal "Несоответствие размерностей"
    else .ok rows false
  | none => .ok (encode allChunks) true

structure FileInfo where
  source : String
  format : String
  title : Option String
  author : Option String

structure ChunkMeta where
  source : String
  format : String
  title : Option String
  author : Option String
  length : Nat

/-- The per-chunk append step of the ingestion loop (main.py lines 139–149):
chunks whose stripped text is shorter than 50 characters are skipped; otherwise
the passage text gets the literal "passage: " prelude while the metadata entry
records the length of the bare chunk. -/
def ingestStep (fi : FileInfo) (acc : List String × List ChunkMeta) (chunk : String) :
    List String × List ChunkMeta :=
  if (pyStrip chunk).length < 50 then acc
  else (acc.1 ++ ["passage: " ++ chunk],
        acc.2 ++ [⟨fi.source, fi.format, fi.title, fi.author, chunk.length⟩])

/-- The per-file chunk loop (main.py lines 139–149). -/
def ingestFileChunks (fi : FileInfo) (chunks : List String)
    (acc : List String × List ChunkMeta) : List String × List ChunkMeta :=
  chunks.foldl (ingestStep fi) acc

/-- The whole-corpus ingestion fold over files. -/
def ingestAll (files : List (FileInfo × List String)) : List String × List ChunkMeta :=
  files.foldl (fun acc fc => ingestFileChunks fc.1 fc.2 acc) ([], [])

/-- The relation the ingestion loop maintains between a stored passage string
and its parallel metadata entry. -/
def PassageRel (p : String) (m : ChunkMeta) : Prop :=
  ∃ c, p = "passage: " ++ c ∧ m.length = c.length ∧ p.length = m.length + 9

structure PdfCfg where
  useOcr : Bool
  minFrac : ℚ
  ocrPageLimit : Option Nat

/-- Oracles for one PDF document: the native text layer of each page and the
result of `ocr_page_easyocr` for each page (that function catches every
exception and returns a string, so it is total). -/
structure PdfEnv where
  pageText : Nat → String
  ocrText : Nat → String

inductive PdfEvent where
  | ocrCall (page : Nat) : PdfEvent
deriving DecidableEq

structure PdfRun where
  pages : List String
  textPages : Nat
  ocrPages : Nat
  events : List PdfEvent
deriving DecidableEq

/-- Python truthiness of `ocr_page_limit` in `if ocr_page_limit and ...`
(read_pdf line 224): `None` and `0` are both falsy. -/
def limitTruthy : Option Nat → Bool
  | none => false
  | some l => decide (l ≠ 0)

/-- The `ocr_page_limit is not None and ocr_count >= ocr_page_limit` guard of
`read_djvu` (line 449). -/
def limitReachedDjvu : Option Nat → Nat → Bool
  | none, _ => false
  | some l, c => decide (c ≥ l)

/-- The common page finalisation of `read_pdf` (lines 253–258): scrub, then
store only pages whose text is non-empty and longer than 50 characters. -/
def appendScrubbed (i : Nat) (t : String) (pages : List String) : List String :=
  if scrub t ≠ "" ∧ (scrub t).length > 50 then pages ++ [pageMarker i (scrub t)]
  else pages

/-- The `read_pdf` page loop (file_reader.py lines 186–258) over the remaining
page indices, carrying the two counters, the collected pages and the log of
OCR invocations.  The OCR-limit branch (lines 224–232) uses Python truthiness
of the limit, keeps only the native text, and `continue`s. -/
def pdfLoop (env : PdfEnv) (cfg : PdfCfg) :
    List Nat → Nat → Nat → List String → List PdfEvent → PdfRun
  | [], textC, ocrC, pages, evs => ⟨pages, textC, ocrC, evs⟩
  | i :: rest, textC, ocrC, pages, evs =>
    let text := env.pageText i
    if has_text_layer text cfg.minFrac then
      pdfLoop env cfg rest (textC + 1) ocrC (appendScrubbed i text pages) evs
    else if cfg.useOcr then
      if limitTruthy cfg.ocrPageLimit && decide (ocrC ≥ cfg.ocrPageLimit.getD 0) then
        let pages := if pyStrip text ≠ "" then appendScrubbed i text pages else pages
        pdfLoop env cfg rest textC ocrC pages evs
      else
        let o := env.ocrText i
        if pyStrip o ≠ "" then
          pdfLoop env cfg rest textC (ocrC + 1) (appendScrubbed i o pages)
            (evs ++ [.ocrCall i])
        else
          let ocrC := if pyStrip text ≠ "" then ocrC + 1 else ocrC
          pdfLoop env cfg rest textC ocrC (appendScrubbed i text pages)
            (evs ++ [.ocrCall i])
    else
      pdfLoop env cfg rest textC ocrC (appendScrubbed i text pages) evs

/-- `read_pdf` (file_reader.py lines 156–269) over an abstract document of
`total` pages. -/
def read_pdf_run (env : PdfEnv) (cfg : PdfCfg) (total : Nat) : PdfRun :=
  pdfLoop env cfg (List.range total) 0 0 [] []

def read_pdf (env : PdfEnv) (cfg : PdfCfg) (total : Nat) : String :=
  pyJoin "\n\n" (read_pdf_run env cfg total).pages

/-- `int(s)` on an already-stripped decimal string. -/
def parseDigits : List Char → Option Nat
  | [] => none
  | l =>
    if l.all Char.isDigit then some (l.foldl (fun n c => n * 10 + (c.toNat - 48)) 0)
    else none

def parseInt (s : String) : Option Int :=
  match s.data with
  | '-' :: rest => (parseDigits rest).map (fun n => -(n : Int))
  | '+' :: rest => (parseDigits rest).map (fun n => (n : Int))
  | l => (parseDigits l).map (fun n => (n : Int))

/-- Fuel-indexed scanner for `re.sub(reference-pattern, '', text)` removing
`[n]` and `<<n>>` page references (file_reader.py line 417); each step consumes
at least one input character, so fuel equal to the input length suffices. -/
def removeRefsGo : Nat → List Char → List Char
  | 0, l => l
  | _ + 1, [] => []
  | fuel + 1, '[' :: rest =>
    let ds := rest.takeWhile Char.isDigit
    if ds ≠ [] then
      match rest.drop ds.length with
      | ']' :: rest2 => removeRefsGo fuel rest2
      | _ => '[' :: removeRefsGo fuel rest
    else '[' :: removeRefsGo fuel rest
  | fuel + 1, '<' :: '<' :: rest =>
    let ds := rest.takeWhile Char.isDigit
    if ds ≠ [] then
      match rest.drop ds.length with
      | '>' :: '>' :: rest2 => removeRefsGo fuel rest2
      | _ => '<' :: removeRefsGo fuel ('<' :: rest)
    else '<' :: removeRefsGo fuel ('<' :: rest)
  | fuel + 1, c :: rest => c :: removeRefsGo fuel rest

def removeRefs (s : String) : String := String.mk (removeRefsGo s.data.length s.data)

/-- The cleanup applied to `djvutxt` output (file_reader.py lines 416–418):
strip, drop `[n]` / `<<n>>` references, collapse newline runs. -/
def djvutxtClean (out : String) : String := collapseNL (removeRefs (pyStrip out))

/-- The whole-document quality bar for the djvutxt text (line 421):
`len(text) > 800 and useful/max(len,1) > 0.12 and len(words >= 3 chars) > 50`. -/
def djvutxtBar (text : String) : Bool :=
  decide (text.length > 800) &&
  decide (mkRat (usefulCount text) (max text.length 1) > mkRat 12 100) &&
  decide (((pySplitWS text).filter (fun w => w.length ≥ 3)).length > 50)

inductive DjvuEvent where
  | lookupTool (name : String) : DjvuEvent
  | runTool (name : String) : DjvuEvent
  | ocrCall (page : Nat) : DjvuEvent
  | mkTemp (path : String) : DjvuEvent
  | delTemp (path : String) : DjvuEvent
deriving DecidableEq

/-- Result of a completed subprocess: return code and captured stdout. -/
structure SubRes where
  rc : Int
  out : String

/-- Oracles for one DJVU document.  `which` is `find_djvulibre_exe`;
`djvutxtRun` / `djvusedRun` model the subprocess calls (`none` = the call
raised, e.g. a timeout); `renderRun i` is the outcome of the `ddjvu` render of
page `i` (`some size` = completed with an output file of `size` bytes, `none`
= raised); `tmpName i` the name `NamedTemporaryFile` picks; `ocrRun i` the
EasyOCR fragments with confidences for page `i` (`none` = the try-block
raised). -/
structure DjvuEnv where
  which : String → Option String
  djvutxtRun : Option SubRes
  djvusedRun : Option SubRes
  renderRun : Nat → Option Nat
  tmpName : Nat → String
  ocrRun : Nat → Option (List (String × ℚ))

structure DjvuCfg where
  useOcr : Bool
  ocrPageLimit : Option Nat

structure DjvuRun where
  text : String
  fs : List String
  events : List DjvuEvent

/-- `extract_djvu_page_image` (file_reader.py lines 331–373) with the file
system as an explicit list of existing temporary paths.  Outcomes: the ddjvu
binary is missing (`none`, fs untouched); the render raised or produced a file
of at most 4096 bytes (`none`, the temp file unlinked); success (`some tmp`,
the temp file still existing, handed to the caller). -/
def extract_djvu_page_image (env : DjvuEnv) (i : Nat) (fs : List String) :
    Option String × List String × List DjvuEvent :=
  match env.which "ddjvu" with
  | none => (none, fs, [.lookupTool "ddjvu"])
  | some _ =>
    let tmp := env.tmpName i
    match env.renderRun i with
    | some size =>
      if size > 4096 then
        (some tmp, tmp :: fs, [.lookupTool "ddjvu", .mkTemp tmp, .runTool "ddjvu"])
      else
        (none, (tmp :: fs).erase tmp,
          [.lookupTool "ddjvu", .mkTemp tmp, .runTool "ddjvu", .delTemp tmp])
    | none =>
      (none, (tmp :: fs).erase tmp,
        [.lookupTool "ddjvu", .mkTemp tmp, .runTool "ddjvu", .delTemp tmp])

/-- Step 1 of `read_djvu` (lines 402–427): the whole-document text layer via
`djvutxt`, accepted only past the quality bar. -/
def djvutxtStep (env : DjvuEnv) : Option String × List DjvuEvent :=
  match env.which "djvutxt" with
  | none => (none, [.lookupTool "djvutxt"])
  | some _ =>
    match env.djvutxtRun with
    | none => (none, [.lookupTool "djvutxt", .runTool "djvutxt"])
    | some res =>
      if res.rc = 0 then
        let text := djvutxtClean res.out
        if djvutxtBar text then (some text, [.lookupTool "djvutxt", .runTool "djvutxt"])
        else (none, [.lookupTool "djvutxt", .runTool "djvutxt"])
      else (none, [.lookupTool "djvutxt", .runTool "djvutxt"])

/-- `get_djvu_page_count` (lines 309–328). -/
def get_djvu_page_count (env : DjvuEnv) : Option Int × List DjvuEvent :=
  match env.which "djvused" with
  | none => (none, [.lookupTool "djvused"])
  | some _ =>
    match env.djvusedRun with
    | none => (none, [.lookupTool "djvused", .runTool "djvused"])
    | some res =>
      if res.rc = 0 then
        (parseInt (pyStrip res.out), [.lookupTool "djvused", .runTool "djvused"])
      else (none, [.lookupTool "djvused", .runTool "djvused"])

/-- The per-page OCR text (lines 465–468): keep fragments with confidence above
0.28, join with newlines, strip. -/
def ocrPageText (results : List (String × ℚ)) : String :=
  pyStrip (pyJoin "\n" ((results.filter (fun r => decide (r.2 > mkRat 28 100))).map Prod.fst))

/-- The per-page OCR loop of `read_djvu` (lines 448–484).  The `finally` block
always unlinks the page image; an OCR exception (`ocrRun i = none`) degrades
that page only. -/
def djvuLoop (env : DjvuEnv) (cfg : DjvuCfg) :
    List Nat → Nat → List String → List String → List DjvuEvent →
    List String × List String × List DjvuEvent
  | [], _, pagesText, fs, evs => (pagesText, fs, evs)
  | i :: rest, ocrC, pagesText, fs, evs =>
    if limitReachedDjvu cfg.ocrPageLimit ocrC then (pagesText, fs, evs)
    else
      match extract_djvu_page_image env i fs with
      | (none, fs1, e1) => djvuLoop env cfg rest ocrC pagesText fs1 (evs ++ e1)
      | (some img, fs1, e1) =>
        match env.ocrRun i with
        | none =>
          djvuLoop env cfg rest ocrC pagesText (fs1.erase img)
            (evs ++ e1 ++ [.ocrCall i, .delTemp img])
        | some results =>
          if ocrPageText results ≠ "" then
            djvuLoop env cfg rest (ocrC + 1) (pagesText ++ [pageMarker i (ocrPageText results)])
              (fs1.erase img) (evs ++ e1 ++ [.ocrCall i, .delTemp img])
          else
            djvuLoop env cfg rest ocrC pagesText (fs1.erase img)
              (evs ++ e1 ++ [.ocrCall i, .delTemp img])

/-- `read_djvu` (file_reader.py lines 376–492): try the whole-document text
layer, then the per-page render + OCR loop.  There is no intermediate format
conversion in this reader.  Returns the extracted text (the empty string when
every path failed), the surviving temporary files, and the log of external
invocations. -/
def read_djvu (env : DjvuEnv) (cfg : DjvuCfg) (fs : List String) : DjvuRun :=
  match djvutxtStep env with
  | (some text, e0) => ⟨text, fs, e0⟩
  | (none, e0) =>
    if !cfg.useOcr then ⟨"", fs, e0⟩
    else
      match get_djvu_page_count env with
      | (none, e1) => ⟨"", fs, e0 ++ e1⟩
      | (some n, e1) =>
        if n < 1 then ⟨"", fs, e0 ++ e1⟩
        else
          match djvuLoop env cfg (List.range n.toNat) 0 [] fs [] with
          | (pagesText, fs2, e2) =>
            if pagesText ≠ [] then ⟨pyJoin "\n\n" pagesText, fs2, e0 ++ e1 ++ e2⟩
            else ⟨"", fs2, e0 ++ e1 ++ e2⟩

/-- A page yields nothing in the djvu OCR loop: either its image cannot be
produced, or every possible OCR outcome filters and strips to the empty string
(an OCR exception contributes nothing via the second disjunct vacuously or the
loop's except-branch). -/
def djvuPageFails (env : DjvuEnv) (i : Nat) : Prop :=
  (extract_djvu_page_image env i []).1 = none ∨
    ∀ results, env.ocrRun i = some results → ocrPageText results = ""

/-- The external tool an event names, if any. -/
def eventTool : DjvuEvent → Option String
  | .lookupTool n => some n
  | .runTool n => some n
  | _ => none

/-- The three DjVuLibre tools `read_djvu` actually uses. -/
def djvuTools : List String := ["djvutxt", "djvused", "ddjvu"]

/-- An event locating or running a tool other than the three DjVuLibre tools —
any DjVu-to-PDF converter invocation would be one. -/
def isForeignToolEvent (e : DjvuEvent) : Bool :=
  match eventTool e with
  | some n => decide (¬ n ∈ djvuTools)
  | none => false

def isOcrCallEvent : DjvuEvent → Bool
  | .ocrCall _ => true
  | _ => false

/-- Environment with no external tools installed. -/
def envNoTools : DjvuEnv :=
  ⟨fun _ => none, none, none, fun _ => none, fun i => "tmp" ++ toString i, fun _ => none⟩

/-- Environment where all three tools are present, the native text layer is too
short for the quality bar, and page 0 (the only page) renders and OCRs
successfully — to text that is short and contains a control character. -/
def envOcrOk : DjvuEnv :=
  ⟨fun _ => some "/usr/bin/tool", some ⟨0, "short text"⟩, some ⟨0, "1"⟩,
    fun _ => some 5000, fun i => "tmp" ++ toString i, fun _ => some [("ab\x01c", mkRat 9 10)]⟩

def cfgDjvuDefault : DjvuCfg := ⟨true, some 120⟩

/-- A scan-only djvu environment: native layer fails (non-zero return code),
3 pages, every page renders and OCRs to usable text. -/
def envDjvuScan : DjvuEnv :=
  ⟨fun _ => some "/usr/bin/tool", some ⟨1, ""⟩, some ⟨0, "3"⟩,
    fun _ => some 5000, fun i => "tmp" ++ toString i,
    fun _ => some [("hello there", mkRat 9 10)]⟩

def cfgDjvuLimit0 : DjvuCfg := ⟨true, some 0⟩

/-- A one-page PDF whose page carries the 200-character native-text example. -/
def envPdfNative : PdfEnv := ⟨fun _ => exNativePage, fun _ => ""⟩

/-- The configuration main.py passes to `read_pdf` (MIN_TEXT_RATIO = 0.10,
OCR_PAGE_LIMIT = 1000). -/
def cfgPdfMain : PdfCfg := ⟨true, mkRat 1 10, some 1000⟩

/-- A PDF whose single page has an empty text layer (needs OCR) and whose OCR
returns text. -/
def envPdfScan : PdfEnv := ⟨fun _ => "", fun _ => "recognized"⟩

def cfgPdfLimit0 : PdfCfg := ⟨true, mkRat 1 10, some 0⟩

/-- The shape of every page stored by the `read_pdf` loop: a page marker
followed by the scrubbed text of some raw page text, longer than 50
characters. -/
def PageShape (p : String) : Prop :=
  ∃ i raw, p = pageMarker i (scrub raw) ∧ (scrub raw).length > 50

/-! ### Helper lemmas -/

theorem forall₂_snoc {α β : Type} (R : α → β → Prop) :
    ∀ (l₁ : List α) (l₂ : List β) (a : α) (b : β),
      List.Forall₂ R l₁ l₂ → R a b → List.Forall₂ R (l₁ ++ [a]) (l₂ ++ [b]) := by
  intro l₁ l₂ a b h hab
  induction h with
  | nil => exact List.Forall₂.cons hab List.Forall₂.nil
  | cons h1 _ ih => exact List.Forall₂.cons h1 ih

theorem ingestStep_rel (fi : FileInfo) (acc : List String × List ChunkMeta) (c : String)
    (h : List.Forall₂ PassageRel acc.1 acc.2) :
    List.Forall₂ PassageRel (ingestStep fi acc c).1 (ingestStep fi acc c).2 := by
  unfold ingestStep
  by_cases hc : (pyStrip c).length < 50
  · simpa [hc] using h
  · simp only [hc, if_false]
    refine forall₂_snoc _ _ _ _ _ h ⟨c, rfl, rfl, ?_⟩
    have h9 : ("passage: " : String).length = 9 := rfl
    simp only [String.length_append, h9]
    omega

theorem foldl_ingest_rel (fi : FileInfo) :
    ∀ (chunks : List String) (acc : List String × List ChunkMeta),
      List.Forall₂ PassageRel acc.1 acc.2 →
      List.Forall₂ PassageRel (List.foldl (ingestStep fi) acc chunks).1
        (List.foldl (ingestStep fi) acc chunks).2 := by
  intro chunks
  induction chunks with
  | nil => intro acc h; simpa using h
  | cons c cs ih =>
    intro acc h
    rw [List.foldl_cons]
    exact ih _ (ingestStep_rel fi acc c h)

/-! ### C1: embeddings reload consistency -/

/-- C1: on reload of `all_embeddings.npy`, a row count differing from the
loaded chunk count raises the fatal `ValueError` ("Несоответствие
размерностей") and the run stops; on a matching count the reloaded rows are
used unchanged (no re-slicing or padding). -/
theorem c1_embeddings_reload {E : Type} (stored : List E) (chunks : List String)
    (encode : List String → List E) :
    (stored.length ≠ chunks.length →
      embeddings_stage (some stored) chunks encode =
        EmbOutcome.fatal "Несоответствие размерностей") ∧
    (stored.length = chunks.length →
      embeddings_stage (some stored) chunks encode = EmbOutcome.ok stored false) := by
  constructor <;> intro h <;> simp [embeddings_stage, h]

/-- Witness for C1: two stored rows against three chunks is fatal; two against
two reloads the stored rows unchanged. -/
theorem c1_embeddings_reload_witness :
    embeddings_stage (some [0, 1]) ["a", "b", "c"] (fun _ => []) =
        EmbOutcome.fatal "Несоответствие размерностей" ∧
      embeddings_stage (some [0, 1]) ["a", "b"] (fun _ => []) =
        EmbOutcome.ok [0, 1] false :=
  ⟨(c1_embeddings_reload [0, 1] ["a", "b", "c"] (fun _ => [])).1 (by decide),
   (c1_embeddings_reload [0, 1] ["a", "b"] (fun _ => [])).2 (by decide)⟩

/-! ### C2: the text-layer classifier -/

/-- C2: the classifier answers "native" exactly when the page has more than
100 characters, a useful-character fraction at least `min_text_ratio` with at
least 50 useful characters, and at least 10 whitespace tokens of length ≥ 3;
in particular the 200-character / 95%-useful / 41-token page is native while
the 200-character page with only 5 such tokens needs OCR. -/
theorem c2_text_layer_classifier :
    (∀ (text : String) (minFrac : ℚ),
      has_text_layer text minFrac = true ↔
        (text.length > 100 ∧
          (usefulCount text : ℚ) / (text.length : ℚ) ≥ minFrac ∧
          usefulCount text ≥ 50 ∧
          ((pySplitWS text).filter (fun w => w.length ≥ 3)).length ≥ 10)) ∧
    has_text_layer exNativePage (mkRat 1 10) = true ∧
    has_text_layer exFewTokensPage (mkRat 1 10) = false := by
  refine ⟨fun text minFrac => ?_, by decide, by decide⟩
  unfold has_text_layer
  simp only [Bool.and_eq_true, decide_eq_true_eq]
  have hmk : mkRat (usefulCount text) text.length
      = (usefulCount text : ℚ) / (text.length : ℚ) := by
    rw [Rat.mkRat_eq_divInt, Rat.divInt_eq_div]
    push_cast
    rfl
  constructor
  · rintro ⟨⟨⟨h1, h2⟩, h3⟩, h4⟩
    refine ⟨h1, ?_, h3, h4⟩
    rwa [if_pos (by omega : text.length > 0), hmk] at h2
  · rintro ⟨h1, h2, h3, h4⟩
    refine ⟨⟨⟨h1, ?_⟩, h3⟩, h4⟩
    rwa [if_pos (by omega : text.length > 0), hmk]

/-- Witness for C2: the two concrete pages, via the classifier theorem. -/
theorem c2_text_layer_classifier_witness :
    has_text_layer exNativePage (mkRat 1 10) = true ∧
      has_text_layer exFewTokensPage (mkRat 1 10) = false :=
  ⟨c2_text_layer_classifier.2.1, c2_text_layer_classifier.2.2⟩

/-! ### C4: index topology (corrected: the code truncates the square root) -/

theorem sqrt_9999_eq : Nat.sqrt 9999 = 99 := by
  have h1 : 99 ≤ Nat.sqrt 9999 := Nat.le_sqrt.2 (by norm_num)
  have h2 : Nat.sqrt 9999 < 100 := Nat.sqrt_lt.2 (by norm_num)
  omega

theorem sqrt_10000_eq : Nat.sqrt 10000 = 100 := by
  have h1 : 100 ≤ Nat.sqrt 10000 := Nat.le_sqrt.2 (by norm_num)
  have h2 : Nat.sqrt 10000 < 101 := Nat.sqrt_lt.2 (by norm_num)
  omega

/-- C4 counterexample: at 9,999 passages the code computes
`nlist = int(sqrt(9999)) = 99`, while the claim's
`clamp(round(sqrt(9999)), 32, 512)` is 100. -/
theorem c4_counterexample :
    chooseIndex 9999 ≠ IndexChoice.ivfflat (specNlist 9999) ∧
      chooseIndex 9999 = IndexChoice.ivfflat 99 ∧ specNlist 9999 = 100 := by
  have hc : chooseIndex 9999 = IndexChoice.ivfflat 99 := by
    unfold chooseIndex
    rw [sqrt_9999_eq]
    decide
  have hs : specNlist 9999 = 100 := by
    unfold specNlist specRoundSqrt
    rw [sqrt_9999_eq]
    decide
  refine ⟨?_, hc, hs⟩
  rw [hc, hs]
  decide

/-- C4 (amended): below 5,000 passages the exact flat index is chosen (and only
filled); from 5,000 on, the inverted-file index is chosen with
`nlist = clamp(floor(sqrt(n)), 32, 512)` — the floor, not the rounded square
root — trained before insertion with `nprobe` fixed to 32 afterwards; at
10,000 passages the cluster count is 100. -/
theorem c4_index_topology (n : Nat) :
    (n < 5000 → chooseIndex n = IndexChoice.flat ∧ indexBuildOps n = [IndexOp.add]) ∧
    (5000 ≤ n →
      chooseIndex n = IndexChoice.ivfflat (max 32 (min (Nat.sqrt n) 512)) ∧
      indexBuildOps n = [IndexOp.train, IndexOp.add, IndexOp.setNprobe 32]) ∧
    (n = 10000 → chooseIndex n = IndexChoice.ivfflat 100) := by
  refine ⟨fun h => ?_, fun h => ?_, fun h => ?_⟩
  · simp [chooseIndex, indexBuildOps, h]
  · have h' : ¬ n < 5000 := by omega
    simp [chooseIndex, indexBuildOps, h']
  · subst h
    have h' : ¬ (10000 : Nat) < 5000 := by norm_num
    unfold chooseIndex
    rw [if_neg h', sqrt_10000_eq]
    decide

/-- Witness for C4: 100 passages give the flat index; 10,000 give the clustered
index with 100 clusters, trained before insertion, probing 32 clusters. -/
theorem c4_index_topology_witness :
    chooseIndex 100 = IndexChoice.flat ∧
      chooseIndex 10000 = IndexChoice.ivfflat 100 ∧
      indexBuildOps 10000 = [IndexOp.train, IndexOp.add, IndexOp.setNprobe 32] :=
  ⟨((c4_index_topology 100).1 (by decide)).1,
   (c4_index_topology 10000).2.2 rfl,
   ((c4_index_topology 10000).2.1 (by decide)).2⟩

/-! ### C10: the passage prelude invariant -/

/-- C10: every persisted passage is the literal "passage: " prelude followed by
the chunk text, the parallel metadata entry records the length of the bare
chunk, and hence every stored passage string is exactly 9 characters longer
than its recorded length. -/
theorem c10_passage_prelude (files : List (FileInfo × List String)) :
    List.Forall₂ PassageRel (ingestAll files).1 (ingestAll files).2 := by
  have haux : ∀ (fl : List (FileInfo × List String)) (acc : List String × List ChunkMeta),
      List.Forall₂ PassageRel acc.1 acc.2 →
      List.Forall₂ PassageRel
        (List.foldl (fun acc fc => ingestFileChunks fc.1 fc.2 acc) acc fl).1
        (List.foldl (fun acc fc => ingestFileChunks fc.1 fc.2 acc) acc fl).2 := by
    intro fl
    induction fl with
    | nil => intro acc h; simpa using h
    | cons f fs ih =>
      intro acc h
      rw [List.foldl_cons]
      exact ih _ (foldl_ingest_rel f.1 f.2 acc h)
  exact haux files ([], []) List.Forall₂.nil

/-- Witness for C10: a single 60-character chunk from one file, via the
invariant theorem. -/
theorem c10_passage_prelude_witness :
    List.Forall₂ PassageRel
      (ingestAll [(⟨"f.txt", "txt", none, none⟩, [String.mk (List.replicate 60 'q')])]).1
      (ingestAll [(⟨"f.txt", "txt", none, none⟩, [String.mk (List.replicate 60 'q')])]).2 :=
  c10_passage_prelude [(⟨"f.txt", "txt", none, none⟩, [String.mk (List.replicate 60 'q')])]

/-! ### C3: the semantic chunker -/

theorem pyJoin_append (sep : String) :
    ∀ (A B : List String), A ≠ [] → B ≠ [] →
      pyJoin sep (A ++ B) = pyJoin sep A ++ sep ++ pyJoin sep B := by
  intro A
  induction A with
  | nil => intro B hA _; exact absurd rfl hA
  | cons a A ih =>
    intro B _ hB
    cases A with
    | nil =>
      cases B with
      | nil => exact absurd rfl hB
      | cons b B => simp [pyJoin]
    | cons a' A' =>
      have h := ih B (by simp) hB
      simp only [List.cons_append] at h ⊢
      rw [show pyJoin sep (a :: a' :: (A' ++ B))
            = a ++ sep ++ pyJoin sep (a' :: (A' ++ B)) from rfl, h,
          show pyJoin sep (a :: a' :: A') = a ++ sep ++ pyJoin sep (a' :: A') from rfl]
      simp [String.append_assoc]

theorem pyJoin_snoc_snoc (sep : String) (X : List String) (u v : String) :
    pyJoin sep (X ++ [u, v]) = pyJoin sep (X ++ [u ++ sep ++ v]) := by
  cases X with
  | nil => simp [pyJoin]
  | cons x X' =>
    rw [pyJoin_append sep (x :: X') [u, v] (by simp) (by simp),
        pyJoin_append sep (x :: X') [u ++ sep ++ v] (by simp) (by simp)]
    simp [pyJoin, String.append_assoc]

theorem chunkGo_flatten (dot : Nat → ℚ) :
    ∀ (rest : List String) (i : Nat) (chunks current : List String), current ≠ [] →
      pyJoin " " (chunkGo dot rest i chunks current) =
        pyJoin " " (chunks ++ [pyJoin " " (current ++ rest)]) := by
  intro rest
  induction rest with
  | nil =>
    intro i chunks current hc
    simp [chunkGo, hc]
  | cons s rest ih =>
    intro i chunks current hc
    by_cases hd : dot i < SIM_THRESHOLD
    · rw [show chunkGo dot (s :: rest) i chunks current
          = chunkGo dot rest (i + 1) (chunks ++ [pyJoin " " current]) [s] by
        simp [chunkGo, hd]]
      rw [ih (i + 1) (chunks ++ [pyJoin " " current]) [s] (by simp)]
      have h1 : pyJoin " " (current ++ s :: rest) =
          pyJoin " " current ++ " " ++ pyJoin " " (s :: rest) :=
        pyJoin_append " " current (s :: rest) hc (by simp)
      rw [h1, ← pyJoin_snoc_snoc, List.append_assoc]
      rfl
    · rw [show chunkGo dot (s :: rest) i chunks current
          = chunkGo dot rest (i + 1) chunks (current ++ [s]) by
        simp [chunkGo, hd]]
      rw [ih (i + 1) chunks (current ++ [s]) (by simp)]
      simp [List.append_assoc]

/-- C3: the semantic chunker returns the sentence list unchanged below two
sentences; otherwise its single left-to-right walk appends a sentence to the
current passage when the previous-sentence similarity reaches the 0.80
threshold and closes the passage (joined with single spaces) otherwise,
flushing the final buffer — so the space-joined output always equals the
space-joined sentence list.  On sentences ["A.", "B.", "C."] with similarities
[0.9, 0.3] it produces exactly ["A. B.", "C."]. -/
theorem c3_semantic_chunk :
    (∀ (sentenize : String → List String) (dot : Nat → ℚ) (text : String),
      (sentenize text).length < 2 → semantic_chunk sentenize dot text = sentenize text) ∧
    (∀ (sentenize : String → List String) (dot : Nat → ℚ) (text : String),
      pyJoin " " (semantic_chunk sentenize dot text) = pyJoin " " (sentenize text)) ∧
    semantic_chunk (fun _ => ["A.", "B.", "C."]) exDot "A. B. C." = ["A. B.", "C."] := by
  refine ⟨fun sentenize dot text h => ?_, fun sentenize dot text => ?_, by decide⟩
  · unfold semantic_chunk
    simp [h]
  · unfold semantic_chunk
    by_cases h : (sentenize text).length < 2
    · simp [h]
    · simp only [h, if_false]
      cases hs : sentenize text with
      | nil => simp [hs] at h
      | cons s0 rest =>
        rw [chunkGo_flatten dot rest 1 [] [s0] (by simp)]
        simp [pyJoin]

/-- Witness for C3: a single-sentence text is returned unchanged. -/
theorem c3_semantic_chunk_witness :
    semantic_chunk (fun _ => ["Solo."]) (fun _ => 0) "Solo." = ["Solo."] :=
  c3_semantic_chunk.1 (fun _ => ["Solo."]) (fun _ => 0) "Solo." (by decide)

/-! ### Scrub properties (for C7) -/

theorem all_collapseNLAux (p : Char → Bool) (hp : p '\n' = true) :
    ∀ (l : List Char) (pending : Nat), l.all p = true →
      (collapseNLAux pending l).all p = true := by
  intro l
  induction l with
  | nil =>
    intro pending _
    rw [show collapseNLAux pending [] = List.replicate (min pending 2) '\n' from rfl,
        List.all_eq_true]
    intro x hx
    rw [List.eq_of_mem_replicate hx]
    exact hp
  | cons c cs ih =>
    intro pending hall
    rw [List.all_cons, Bool.and_eq_true] at hall
    by_cases hc : c = '\n'
    · rw [show collapseNLAux pending (c :: cs) = collapseNLAux (pending + 1) cs by
        simp [collapseNLAux, hc]]
      exact ih (pending + 1) hall.2
    · rw [show collapseNLAux pending (c :: cs)
          = List.replicate (min pending 2) '\n' ++ c :: collapseNLAux 0 cs by
        simp [collapseNLAux, hc]]
      rw [List.all_append, Bool.and_eq_true]
      refine ⟨?_, ?_⟩
      · rw [List.all_eq_true]
        intro x hx
        rw [List.eq_of_mem_replicate hx]
        exact hp
      · rw [List.all_cons, Bool.and_eq_true]
        exact ⟨hall.1, ih 0 hall.2⟩

theorem hasTriple3_tail (a : Char) (l : List Char) (h : hasTriple3 (a :: l) = false) :
    hasTriple3 l = false := by
  match l with
  | [] => rfl
  | [b] => rfl
  | b :: c :: t =>
    simp only [hasTriple3, Bool.or_eq_false_iff] at h
    exact h.2

theorem hasTriple3_append_right (l₁ l₂ : List Char) (h : hasTriple3 (l₁ ++ l₂) = false) :
    hasTriple3 l₂ = false := by
  induction l₁ with
  | nil => exact h
  | cons a l₁ ih => exact ih (hasTriple3_tail a (l₁ ++ l₂) h)

theorem hasTriple3_append_left :
    ∀ (l₁ l₂ : List Char), hasTriple3 (l₁ ++ l₂) = false → hasTriple3 l₁ = false
  | [], _, _ => rfl
  | [_], _, _ => rfl
  | [_, _], _, _ => rfl
  | a :: b :: c :: r, l₂, h => by
    have h' : hasTriple3 (a :: b :: c :: (r ++ l₂)) = false := h
    simp only [hasTriple3, Bool.or_eq_false_iff] at h' ⊢
    exact ⟨h'.1, hasTriple3_append_left (b :: c :: r) l₂ h'.2⟩

theorem hasTriple3_cons_ne (c : Char) (r : List Char) (hc : ¬ c = '\n')
    (hr : hasTriple3 r = false) : hasTriple3 (c :: r) = false := by
  match r with
  | [] => rfl
  | [b] => rfl
  | b :: d :: t =>
    simp only [hasTriple3, Bool.or_eq_false_iff] at hr ⊢
    exact ⟨by simp [hc], hr⟩

theorem hasTriple3_cons2_ne (a c : Char) (r : List Char) (hc : ¬ c = '\n')
    (hcr : hasTriple3 (c :: r) = false) : hasTriple3 (a :: c :: r) = false := by
  match r with
  | [] => rfl
  | b :: t =>
    simp only [hasTriple3, Bool.or_eq_false_iff]
    exact ⟨by simp [hc], hcr⟩

theorem hasTriple3_collapseNLAux :
    ∀ (l : List Char) (pending : Nat), hasTriple3 (collapseNLAux pending l) = false := by
  intro l
  induction l with
  | nil =>
    intro pending
    rw [show collapseNLAux pending [] = List.replicate (min pending 2) '\n' from rfl]
    have h : min pending 2 = 0 ∨ min pending 2 = 1 ∨ min pending 2 = 2 := by omega
    rcases h with h | h | h <;> rw [h] <;> rfl
  | cons c cs ih =>
    intro pending
    by_cases hc : c = '\n'
    · rw [show collapseNLAux pending (c :: cs) = collapseNLAux (pending + 1) cs by
        simp [collapseNLAux, hc]]
      exact ih (pending + 1)
    · rw [show collapseNLAux pending (c :: cs)
          = List.replicate (min pending 2) '\n' ++ c :: collapseNLAux 0 cs by
        simp [collapseNLAux, hc]]
      have h0 : hasTriple3 (c :: collapseNLAux 0 cs) = false :=
        hasTriple3_cons_ne c _ hc (ih 0)
      have h1 : hasTriple3 ('\n' :: c :: collapseNLAux 0 cs) = false :=
        hasTriple3_cons2_ne '\n' c _ hc h0
      have h2 : hasTriple3 ('\n' :: '\n' :: c :: collapseNLAux 0 cs) = false := by
        simp only [hasTriple3, Bool.or_eq_false_iff]
        exact ⟨by simp [hc], h1⟩
      have h : min pending 2 = 0 ∨ min pending 2 = 1 ∨ min pending 2 = 2 := by omega
      rcases h with h | h | h <;> rw [h]
      · simpa using h0
      · simpa using h1
      · simpa using h2

theorem pyStrip_mem (s : String) (c : Char) (hc : c ∈ (pyStrip s).data) : c ∈ s.data := by
  have h1 : c ∈ (s.data.dropWhile pyIsSpace).reverse.dropWhile pyIsSpace := by
    have hd : (pyStrip s).data
        = ((s.data.dropWhile pyIsSpace).reverse.dropWhile pyIsSpace).reverse := rfl
    rw [hd, List.mem_reverse] at hc
    exact hc
  have h2 : c ∈ (s.data.dropWhile pyIsSpace).reverse :=
    (List.dropWhile_sublist _).subset h1
  rw [List.mem_reverse] at h2
  exact (List.dropWhile_sublist _).subset h2

theorem scrub_noCtrl (s : String) : (scrub s).data.all (fun c => !isCtrl c) = true := by
  have hrc : (removeCtrl s).data.all (fun c => !isCtrl c) = true := by
    rw [List.all_eq_true]
    intro x hx
    have hx' : x ∈ s.data.filter (fun c => !isCtrl c) := hx
    exact (List.mem_filter.mp hx').2
  have hbase : (collapseNL (removeCtrl s)).data.all (fun c => !isCtrl c) = true :=
    all_collapseNLAux (fun c => !isCtrl c) (by decide) (removeCtrl s).data 0 hrc
  rw [List.all_eq_true] at hbase ⊢
  intro x hx
  exact hbase x (pyStrip_mem (collapseNL (removeCtrl s)) x hx)

theorem hasTriple3_pyStrip (t : String) (h : hasTriple3 t.data = false) :
    hasTriple3 (pyStrip t).data = false := by
  have hd : hasTriple3 (t.data.dropWhile pyIsSpace) = false := by
    apply hasTriple3_append_right (t.data.takeWhile pyIsSpace) (t.data.dropWhile pyIsSpace)
    rw [List.takeWhile_append_dropWhile]
    exact h
  have hsplit : t.data.dropWhile pyIsSpace
      = ((t.data.dropWhile pyIsSpace).reverse.dropWhile pyIsSpace).reverse
        ++ ((t.data.dropWhile pyIsSpace).reverse.takeWhile pyIsSpace).reverse := by
    have h1 : (t.data.dropWhile pyIsSpace).reverse.takeWhile pyIsSpace
        ++ (t.data.dropWhile pyIsSpace).reverse.dropWhile pyIsSpace
        = (t.data.dropWhile pyIsSpace).reverse :=
      List.takeWhile_append_dropWhile pyIsSpace (t.data.dropWhile pyIsSpace).reverse
    have h2 := congrArg List.reverse h1
    rw [List.reverse_append, List.reverse_reverse] at h2
    exact h2.symm
  have hfinal : (pyStrip t).data
      = ((t.data.dropWhile pyIsSpace).reverse.dropWhile pyIsSpace).reverse := rfl
  rw [hfinal]
  exact hasTriple3_append_left
    ((t.data.dropWhile pyIsSpace).reverse.dropWhile pyIsSpace).reverse
    ((t.data.dropWhile pyIsSpace).reverse.takeWhile pyIsSpace).reverse
    (by rw [← hsplit]; exact hd)

theorem scrub_noTriple (s : String) : hasTriple3 (scrub s).data = false :=
  hasTriple3_pyStrip (collapseNL (removeCtrl s))
    (hasTriple3_collapseNLAux (removeCtrl s).data 0)

/-! ### C7: page scrub and the 50-character floor -/

theorem appendScrubbed_shape (i : Nat) (t : String) (pages : List String)
    (h : ∀ p ∈ pages, PageShape p) : ∀ p ∈ appendScrubbed i t pages, PageShape p := by
  intro p hp
  unfold appendScrubbed at hp
  by_cases hc : scrub t ≠ "" ∧ (scrub t).length > 50
  · rw [if_pos hc] at hp
    rcases List.mem_append.mp hp with h1 | h1
    · exact h p h1
    · rw [List.mem_singleton] at h1
      subst h1
      exact ⟨i, t, rfl, hc.2⟩
  · rw [if_neg hc] at hp
    exact h p hp

theorem pdfLoop_shape (env : PdfEnv) (cfg : PdfCfg) :
    ∀ (idxs : List Nat) (textC ocrC : Nat) (pages : List String) (evs : List PdfEvent),
      (∀ p ∈ pages, PageShape p) →
      ∀ p ∈ (pdfLoop env cfg idxs textC ocrC pages evs).pages, PageShape p := by
  intro idxs
  induction idxs with
  | nil =>
    intro textC ocrC pages evs h
    simpa [pdfLoop] using h
  | cons i rest ih =>
    intro textC ocrC pages evs h
    rw [pdfLoop]
    by_cases h1 : has_text_layer (env.pageText i) cfg.minFrac = true
    · simp only [h1, if_true]
      exact ih _ _ _ _ (appendScrubbed_shape i (env.pageText i) pages h)
    · simp only [h1, if_false, Bool.false_eq_true]
      by_cases h2 : cfg.useOcr = true
      · simp only [h2, if_true]
        by_cases h3 : (limitTruthy cfg.ocrPageLimit
            && decide (ocrC ≥ cfg.ocrPageLimit.getD 0)) = true
        · simp only [h3, if_true]
          by_cases h4 : pyStrip (env.pageText i) ≠ ""
          · rw [if_pos h4]
            exact ih _ _ _ _ (appendScrubbed_shape i (env.pageText i) pages h)
          · rw [if_neg h4]
            exact ih _ _ _ _ h
        · simp only [h3, if_false, Bool.false_eq_true]
          by_cases h5 : pyStrip (env.ocrText i) ≠ ""
          · rw [if_pos h5]
            exact ih _ _ _ _ (appendScrubbed_shape i (env.ocrText i) pages h)
          · rw [if_neg h5]
            exact ih _ _ _ _ (appendScrubbed_shape i (env.pageText i) pages h)
      · simp only [h2, if_false, Bool.false_eq_true]
        exact ih _ _ _ _ (appendScrubbed_shape i (env.pageText i) pages h)

/-- C7 (amended): every page stored by the portable-document reader is the page
marker plus the scrub — control characters removed, newline runs collapsed to
at most one blank line, stripped — of some raw page text, and only pages whose
scrubbed text exceeds 50 characters are stored, so a page whose scrubbed text
is under 50 characters contributes nothing.  The scanned-archive reader does
not scrub or floor its OCR pages (see the counterexample). -/
theorem c7_pdf_page_scrub (env : PdfEnv) (cfg : PdfCfg) (total : Nat) (p : String)
    (hp : p ∈ (read_pdf_run env cfg total).pages) :
    ∃ i raw, p = pageMarker i (scrub raw) ∧ (scrub raw).length > 50 ∧
      (scrub raw).data.all (fun c => !isCtrl c) = true ∧
      hasTriple3 (scrub raw).data = false := by
  have hshape : PageShape p :=
    pdfLoop_shape env cfg (List.range total) 0 0 [] []
      (by intro q hq; exact absurd hq (List.not_mem_nil q)) p hp
  rcases hshape with ⟨i, raw, hpe, hlen⟩
  exact ⟨i, raw, hpe, hlen, scrub_noCtrl raw, scrub_noTriple raw⟩

/-- Witness for C7: the one-page native-text PDF stores exactly the marked,
scrubbed 200-character page, and that page satisfies the scrub properties. -/
theorem c7_pdf_page_scrub_witness :
    pageMarker 0 (scrub exNativePage) ∈ (read_pdf_run envPdfNative cfgPdfMain 1).pages ∧
      (∃ i raw, pageMarker 0 (scrub exNativePage) = pageMarker i (scrub raw) ∧
        (scrub raw).length > 50 ∧ (scrub raw).data.all (fun c => !isCtrl c) = true ∧
        hasTriple3 (scrub raw).data = false) :=
  ⟨by decide, c7_pdf_page_scrub envPdfNative cfgPdfMain 1 _ (by decide)⟩

/-- C7 counterexample: the scanned-archive reader appends a page's OCR text
verbatim whenever non-empty — here a 4-character page text containing the
control character 0x01 is stored, neither scrubbed nor subject to the
50-character floor. -/
theorem c7_counterexample :
    (read_djvu envOcrOk cfgDjvuDefault []).text = pageMarker 0 "ab\x01c" ∧
      ("ab\x01c" : String).length < 50 ∧
      ("ab\x01c" : String).data.all (fun c => !isCtrl c) = false := by
  refine ⟨?_, ?_, ?_⟩ <;> decide

/-! ### C8: the OCR page limit (code bug at limit 0) -/

/-- C8 (code bug): `read_pdf` guards its OCR limit with Python truthiness
(`if ocr_page_limit and ...`), so a configured limit of 0 is treated as "no
limit": the single needs-OCR page still triggers a recognition call and the
OCR page counter ends at 1, although the limit (0) was already reached — the
docstring ("None = no limit") and the claim say otherwise.  The parallel
`read_djvu` loop guards with `is not None`, makes no recognition call under a
limit of 0, and still returns the accumulated (here empty) text. -/
theorem c8_limit_zero_truthiness_bug :
    (read_pdf_run envPdfScan cfgPdfLimit0 1).events = [PdfEvent.ocrCall 0] ∧
      (read_pdf_run envPdfScan cfgPdfLimit0 1).ocrPages = 1 ∧
      (read_djvu envDjvuScan cfgDjvuLimit0 []).events.filter isOcrCallEvent = [] ∧
      (read_djvu envDjvuScan cfgDjvuLimit0 []).text = "" := by
  refine ⟨?_, ?_, ?_, ?_⟩ <;> decide

/-! ### DJVU cascade lemmas (for C5, C6, C9) -/

theorem extract_fst_indep (env : DjvuEnv) (i : Nat) (fs fs' : List String) :
    (extract_djvu_page_image env i fs).1 = (extract_djvu_page_image env i fs').1 := by
  unfold extract_djvu_page_image
  cases hw : env.which "ddjvu" with
  | none => rfl
  | some path =>
    cases hr : env.renderRun i with
    | none => rfl
    | some size =>
      by_cases hs : size > 4096
      · simp [hs]
      · simp [hs]

theorem extract_fs_spec (env : DjvuEnv) (i : Nat) (fs : List String) :
    ((extract_djvu_page_image env i fs).1 = none ∧
      (extract_djvu_page_image env i fs).2.1 = fs) ∨
    ((extract_djvu_page_image env i fs).1 = some (env.tmpName i) ∧
      (extract_djvu_page_image env i fs).2.1 = env.tmpName i :: fs) := by
  unfold extract_djvu_page_image
  cases hw : env.which "ddjvu" with
  | none => left; exact ⟨rfl, rfl⟩
  | some path =>
    cases hr : env.renderRun i with
    | none => left; exact ⟨rfl, by simp [List.erase_cons_head]⟩
    | some size =>
      by_cases hs : size > 4096
      · right; simp [hs]
      · left; simp [hs, List.erase_cons_head]

theorem extract_events_tools (env : DjvuEnv) (i : Nat) (fs : List String) :
    ∀ e ∈ (extract_djvu_page_image env i fs).2.2, isForeignToolEvent e = false := by
  unfold extract_djvu_page_image
  cases hw : env.which "ddjvu" with
  | none =>
    intro e he
    simp only [List.mem_singleton] at he
    subst he
    rfl
  | some path =>
    cases hr : env.renderRun i with
    | none =>
      intro e he
      simp only [List.mem_cons, List.not_mem_nil, or_false] at he
      rcases he with rfl | rfl | rfl | rfl <;> rfl
    | some size =>
      by_cases hs : size > 4096
      · simp only [if_pos hs]
        intro e he
        simp only [List.mem_cons, List.not_mem_nil, or_false] at he
        rcases he with rfl | rfl | rfl <;> rfl
      · simp only [if_neg hs]
        intro e he
        simp only [List.mem_cons, List.not_mem_nil, or_false] at he
        rcases he with rfl | rfl | rfl | rfl <;> rfl

theorem djvutxtStep_events_spec (env : DjvuEnv) :
    (djvutxtStep env).2 = [DjvuEvent.lookupTool "djvutxt"] ∨
      (djvutxtStep env).2 = [DjvuEvent.lookupTool "djvutxt", DjvuEvent.runTool "djvutxt"] := by
  unfold djvutxtStep
  cases env.which "djvutxt" with
  | none => left; rfl
  | some path =>
    cases env.djvutxtRun with
    | none => right; rfl
    | some res =>
      by_cases hrc : res.rc = 0
      · by_cases hb : djvutxtBar (djvutxtClean res.out) = true
        · right; simp [hrc, hb]
        · right; simp [hrc, hb]
      · right; simp [hrc]

theorem page_count_events_spec (env : DjvuEnv) :
    (get_djvu_page_count env).2 = [DjvuEvent.lookupTool "djvused"] ∨
      (get_djvu_page_count env).2
        = [DjvuEvent.lookupTool "djvused", DjvuEvent.runTool "djvused"] := by
  unfold get_djvu_page_count
  cases env.which "djvused" with
  | none => left; rfl
  | some path =>
    cases env.djvusedRun with
    | none => right; rfl
    | some res =>
      by_cases hrc : res.rc = 0
      · right; simp [hrc]
      · right; simp [hrc]

theorem djvuLoop_events_tools (env : DjvuEnv) (cfg : DjvuCfg) :
    ∀ (idxs : List Nat) (ocrC : Nat) (pagesText fs : List String) (evs : List DjvuEvent),
      (∀ e ∈ evs, isForeignToolEvent e = false) →
      ∀ e ∈ (djvuLoop env cfg idxs ocrC pagesText fs evs).2.2,
        isForeignToolEvent e = false := by
  intro idxs
  induction idxs with
  | nil =>
    intro ocrC pagesText fs evs h
    exact h
  | cons i rest ih =>
    intro ocrC pagesText fs evs h
    rw [djvuLoop]
    by_cases hl : limitReachedDjvu cfg.ocrPageLimit ocrC = true
    · rw [if_pos hl]
      exact h
    · rw [if_neg hl]
      split
      next fs1 e1 heq =>
        refine ih ocrC pagesText fs1 (evs ++ e1) ?_
        intro e he
        rcases List.mem_append.mp he with h1 | h1
        · exact h e h1
        · have he1 := extract_events_tools env i fs
          rw [heq] at he1
          exact he1 e h1
      next img fs1 e1 heq =>
        have he1 : ∀ e ∈ e1, isForeignToolEvent e = false := by
          have h' := extract_events_tools env i fs
          rw [heq] at h'
          exact h'
        have hcomb2 : ∀ e ∈ evs ++ e1 ++ [DjvuEvent.ocrCall i, DjvuEvent.delTemp img],
            isForeignToolEvent e = false := by
          intro e he
          rcases List.mem_append.mp he with h1 | h1
          · rcases List.mem_append.mp h1 with h2 | h2
            · exact h e h2
            · exact he1 e h2
          · simp only [List.mem_cons, List.not_mem_nil, or_false] at h1
            rcases h1 with rfl | rfl <;> rfl
        split
        next hoc => exact ih ocrC pagesText (fs1.erase img) _ hcomb2
        next results hoc =>
          split
          next hpt =>
            exact ih (ocrC + 1) (pagesText ++ [pageMarker i (ocrPageText results)])
              (fs1.erase img) _ hcomb2
          next hpt => exact ih ocrC pagesText (fs1.erase img) _ hcomb2

theorem djvuLoop_fs (env : DjvuEnv) (cfg : DjvuCfg) :
    ∀ (idxs : List Nat) (ocrC : Nat) (pagesText fs : List String) (evs : List DjvuEvent),
      (djvuLoop env cfg idxs ocrC pagesText fs evs).2.1 = fs := by
  intro idxs
  induction idxs with
  | nil => intro ocrC pagesText fs evs; rfl
  | cons i rest ih =>
    intro ocrC pagesText fs evs
    rw [djvuLoop]
    by_cases hl : limitReachedDjvu cfg.ocrPageLimit ocrC = true
    · rw [if_pos hl]
    · rw [if_neg hl]
      split
      next fs1 e1 heq =>
        have hspec := extract_fs_spec env i fs
        rw [heq] at hspec
        rcases hspec with ⟨_, h2⟩ | ⟨h1, _⟩
        · have h2' : fs1 = fs := h2
          exact (ih ocrC pagesText fs1 (evs ++ e1)).trans h2'
        · exact absurd (show (none : Option String) = some (env.tmpName i) from h1) (by simp)
      next img fs1 e1 heq =>
        have hspec := extract_fs_spec env i fs
        rw [heq] at hspec
        rcases hspec with ⟨h1, _⟩ | ⟨h1, h2⟩
        · exact absurd (show (some img : Option String) = none from h1) (by simp)
        · have himg : img = env.tmpName i := Option.some.inj h1
          have herase : fs1.erase img = fs := by
            have h2' : fs1 = env.tmpName i :: fs := h2
            rw [h2', himg, List.erase_cons_head]
          split
          next hoc => exact (ih ocrC pagesText (fs1.erase img) _).trans herase
          next results hoc =>
            split
            next hpt => exact (ih (ocrC + 1) _ (fs1.erase img) _).trans herase
            next hpt => exact (ih ocrC pagesText (fs1.erase img) _).trans herase

theorem djvuLoop_pages_of_fails (env : DjvuEnv) (cfg : DjvuCfg)
    (hf : ∀ i, djvuPageFails env i) :
    ∀ (idxs : List Nat) (ocrC : Nat) (pagesText fs : List String) (evs : List DjvuEvent),
      (djvuLoop env cfg idxs ocrC pagesText fs evs).1 = pagesText := by
  intro idxs
  induction idxs with
  | nil => intro ocrC pagesText fs evs; rfl
  | cons i rest ih =>
    intro ocrC pagesText fs evs
    rw [djvuLoop]
    by_cases hl : limitReachedDjvu cfg.ocrPageLimit ocrC = true
    · rw [if_pos hl]
    · rw [if_neg hl]
      split
      next fs1 e1 heq => exact ih ocrC pagesText fs1 (evs ++ e1)
      next img fs1 e1 heq =>
        split
        next hoc => exact ih ocrC pagesText (fs1.erase img) _
        next results hoc =>
          have hempty : ocrPageText results = "" := by
            rcases hf i with hfail | hocr
            · exfalso
              have hind := extract_fst_indep env i fs []
              rw [heq, hfail] at hind
              exact absurd (show (some img : Option String) = none from hind) (by simp)
            · exact hocr results hoc
          split
          next hpt => exact absurd hempty hpt
          next hpt => exact ih ocrC pagesText (fs1.erase img) _

/-! ### C5: total failure yields the empty string -/

/-- C5: when no external tool can be located, the scanned-archive cascade
returns the empty string (and, being a total function into `String`, never
raises and never returns null); more generally, whenever the native text-layer
attempt fails and every page fails to yield text, the result is the empty
string. -/
theorem c5_all_paths_fail_empty :
    (∀ (env : DjvuEnv) (cfg : DjvuCfg) (fs : List String),
      (∀ t, env.which t = none) → (read_djvu env cfg fs).text = "") ∧
    (∀ (env : DjvuEnv) (cfg : DjvuCfg) (fs : List String),
      (djvutxtStep env).1 = none → (∀ i, djvuPageFails env i) →
      (read_djvu env cfg fs).text = "") := by
  have hgen : ∀ (env : DjvuEnv) (cfg : DjvuCfg) (fs : List String),
      (djvutxtStep env).1 = none → (∀ i, djvuPageFails env i) →
      (read_djvu env cfg fs).text = "" := by
    intro env cfg fs hnat hf
    unfold read_djvu
    split
    next text e0 heq =>
      rw [heq] at hnat
      exact absurd (show (some text : Option String) = none from hnat) (by simp)
    next e0 heq =>
      by_cases hu : cfg.useOcr = true
      · rw [if_neg (by simp [hu])]
        split
        next e1 heq1 => rfl
        next n e1 heq1 =>
          by_cases hn : n < 1
          · rw [if_pos hn]
          · rw [if_neg hn]
            split
            next pt fs2 e2 heq2 =>
              have hpt : pt = [] := by
                have h' := djvuLoop_pages_of_fails env cfg hf (List.range n.toNat) 0 [] fs []
                rw [heq2] at h'
                exact h'
              subst hpt
              rw [if_neg (by simp)]
      · rw [if_pos (by simp [hu])]
  refine ⟨fun env cfg fs hw => ?_, hgen⟩
  apply hgen env cfg fs
  · unfold djvutxtStep
    rw [hw "djvutxt"]
  · intro i
    left
    unfold extract_djvu_page_image
    rw [hw "ddjvu"]

/-- Witness for C5: the environment with no tools installed returns "". -/
theorem c5_all_paths_fail_empty_witness :
    (read_djvu envNoTools cfgDjvuDefault []).text = "" :=
  c5_all_paths_fail_empty.1 envNoTools cfgDjvuDefault [] (fun _ => rfl)

/-! ### C6: no conversion state exists (corrected) -/

/-- C6 (amended): on failure of the native text-layer attempt the
scanned-archive cascade moves directly to per-page rendering + OCR; it never
invokes any external tool besides the text extractor (djvutxt), the page
counter (djvused) and the single-page rasterizer (ddjvu) — in particular no
DjVu-to-PDF converter is ever located or run, and no intermediate
portable-document is produced or recursed into. -/
theorem c6_no_conversion_state (env : DjvuEnv) (cfg : DjvuCfg) (fs : List String)
    (e : DjvuEvent) (he : e ∈ (read_djvu env cfg fs).events) :
    isForeignToolEvent e = false := by
  unfold read_djvu at he
  have hstep : ∀ (e0 : List DjvuEvent), (djvutxtStep env).2 = e0 →
      ∀ x ∈ e0, isForeignToolEvent x = false := by
    intro e0 heq x hx
    rcases djvutxtStep_events_spec env with hs | hs
    · rw [heq] at hs
      rw [hs] at hx
      simp only [List.mem_singleton] at hx
      subst hx
      rfl
    · rw [heq] at hs
      rw [hs] at hx
      simp only [List.mem_cons, List.not_mem_nil, or_false] at hx
      rcases hx with rfl | rfl <;> rfl
  have hcount : ∀ (e1 : List DjvuEvent), (get_djvu_page_count env).2 = e1 →
      ∀ x ∈ e1, isForeignToolEvent x = false := by
    intro e1 heq x hx
    rcases page_count_events_spec env with hs | hs
    · rw [heq] at hs
      rw [hs] at hx
      simp only [List.mem_singleton] at hx
      subst hx
      rfl
    · rw [heq] at hs
      rw [hs] at hx
      simp only [List.mem_cons, List.not_mem_nil, or_false] at hx
      rcases hx with rfl | rfl <;> rfl
  split at he
  next text e0 heq =>
    exact hstep e0 (by rw [heq]) e he
  next e0 heq =>
    have he0 : ∀ x ∈ e0, isForeignToolEvent x = false := hstep e0 (by rw [heq])
    by_cases hu : cfg.useOcr = true
    · rw [if_neg (by simp [hu])] at he
      split at he
      next e1 heq1 =>
        have he1 : ∀ x ∈ e1, isForeignToolEvent x = false := hcount e1 (by rw [heq1])
        rcases List.mem_append.mp he with h' | h'
        · exact he0 e h'
        · exact he1 e h'
      next n e1 heq1 =>
        have he1 : ∀ x ∈ e1, isForeignToolEvent x = false := hcount e1 (by rw [heq1])
        by_cases hn : n < 1
        · rw [if_pos hn] at he
          rcases List.mem_append.mp he with h' | h'
          · exact he0 e h'
          · exact he1 e h'
        · rw [if_neg hn] at he
          split at he
          next pt fs2 e2 heq2 =>
            have he2 : ∀ x ∈ e2, isForeignToolEvent x = false := by
              intro x hx
              have h' := djvuLoop_events_tools env cfg (List.range n.toNat) 0 [] fs []
                (by intro y hy; exact absurd hy (List.not_mem_nil y))
              rw [heq2] at h'
              exact h' x hx
            by_cases hne : pt ≠ []
            · rw [if_pos hne] at he
              rcases List.mem_append.mp he with h' | h'
              · rcases List.mem_append.mp h' with h2 | h2
                · exact he0 e h2
                · exact he1 e h2
              · exact he2 e h'
            · rw [if_neg hne] at he
              rcases List.mem_append.mp he with h' | h'
              · rcases List.mem_append.mp h' with h2 | h2
                · exact he0 e h2
                · exact he1 e h2
              · exact he2 e h'
    · rw [if_pos (by simp [hu])] at he
      exact he0 e he

/-- Witness for C6: a concrete run whose first logged event is the lookup of
djvutxt, which is one of the three DjVuLibre tools. -/
theorem c6_no_conversion_state_witness :
    isForeignToolEvent (DjvuEvent.lookupTool "djvutxt") = false :=
  c6_no_conversion_state envOcrOk cfgDjvuDefault [] (DjvuEvent.lookupTool "djvutxt")
    (by decide)

/-- C6 counterexample: a run in which the native text fails its quality bar and
the cascade performs direct per-page rendering (ddjvu is run) producing
non-empty text, while no converter is ever looked up or run — the events
contain no foreign-tool invocation at all, refuting the claimed
ConversionAttempt state between the native attempt and per-page rendering. -/
theorem c6_counterexample :
    (djvutxtStep envOcrOk).1 = none ∧
      DjvuEvent.runTool "ddjvu" ∈ (read_djvu envOcrOk cfgDjvuDefault []).events ∧
      (read_djvu envOcrOk cfgDjvuDefault []).events.filter isForeignToolEvent = [] ∧
      (read_djvu envOcrOk cfgDjvuDefault []).text ≠ "" := by
  refine ⟨?_, ?_, ?_, ?_⟩ <;> decide

/-! ### C9: temporary page images never survive -/

/-- C9: the scanned-archive reader restores the set of existing temporary
files exactly: every page image created by the rasterizer is deleted on every
exit path (render failure, too-small output, OCR exception, success), so after
`read_djvu` completes no temporary image file survives. -/
theorem c9_no_temp_file_survives (env : DjvuEnv) (cfg : DjvuCfg) (fs : List String) :
    (read_djvu env cfg fs).fs = fs := by
  unfold read_djvu
  split
  next text e0 heq => rfl
  next e0 heq =>
    by_cases hu : cfg.useOcr = true
    · rw [if_neg (by simp [hu])]
      split
      next e1 heq1 => rfl
      next n e1 heq1 =>
        by_cases hn : n < 1
        · rw [if_pos hn]
        · rw [if_neg hn]
          split
          next pt fs2 e2 heq2 =>
            have hfs : fs2 = fs := by
              have h' := djvuLoop_fs env cfg (List.range n.toNat) 0 [] fs []
              rw [heq2] at h'
              exact h'
            by_cases hne : pt ≠ []
            · rw [if_pos hne]
              exact hfs
            · rw [if_neg hne]
              exact hfs
    · rw [if_pos (by simp [hu])]

/-- Witness for C9: a concrete run over a file system holding one pre-existing
file leaves it exactly intact. -/
theorem c9_no_temp_file_survives_witness :
    (read_djvu envOcrOk cfgDjvuDefault ["keep.png"]).fs = ["keep.png"] :=
  c9_no_temp_file_survives envOcrOk cfgDjvuDefault ["keep.png"]

end RagPlants
